import Mathlib

/-!
Verification development for the DebateCoach backend (`server.js`).

The JavaScript helpers and route handlers that the specification talks
about are shallowly embedded below: strings are `List Char`, JavaScript
numbers are modelled by `JsNum` (rationals plus the non-finite values),
dynamic JSON values by `JsVal`, and each route handler becomes a pure
function from its request data (plus the outcome of the external
completion / transcription call, which is not part of this repository)
to a response record.  Filesystem state for the `/stt` route is a list
of paths.
-/

namespace DebateCoach

/-- Code points matched by the JavaScript regexp class `\s` and removed by
`String.prototype.trim`. -/
def wsCodes : List Nat :=
  [9, 10, 11, 12, 13, 32, 0xa0, 0x1680, 0x2000, 0x2001, 0x2002, 0x2003,
   0x2004, 0x2005, 0x2006, 0x2007, 0x2008, 0x2009, 0x200a, 0x2028, 0x2029,
   0x202f, 0x205f, 0x3000, 0xfeff]

/-- Whether a character is JavaScript whitespace. -/
def isWsChar (c : Char) : Bool := wsCodes.contains c.toNat

/-- `String.prototype.toLowerCase` restricted to the ASCII range (all the
strings the code compares against are ASCII). -/
def lowerL (l : List Char) : List Char := l.map Char.toLower

/-- Removal of trailing whitespace (the right half of `trim`). -/
def trimRight (l : List Char) : List Char := (l.reverse.dropWhile isWsChar).reverse

/-- Model of JavaScript `String.prototype.trim`. -/
def jsTrim (l : List Char) : List Char := (trimRight l).dropWhile isWsChar

/-- One step (right to left) of `split(/\s+/)`: the boolean records whether
the previously processed character (the one directly to the right) was
whitespace, so that a run of whitespace opens only one new piece. -/
def splitStep (c : Char) (st : List (List Char) × Bool) : List (List Char) × Bool :=
  if isWsChar c then
    if st.2 then (st.1, true) else ([] :: st.1, true)
  else
    match st.1 with
    | [] => ([[c]], false)
    | p :: ps => ((c :: p) :: ps, false)

/-- Model of JavaScript `s.split(/\s+/)`: the pieces between maximal
whitespace runs, including an empty leading (trailing) piece when the
string starts (ends) with whitespace, and `[""]` on the empty string. -/
def splitWsRuns (l : List Char) : List (List Char) :=
  (l.foldr splitStep ([[]], false)).1

/-- One step (right to left) of maximal-token extraction: the boolean
records whether the character directly to the right was whitespace or the
end of the string, i.e. whether a non-whitespace character here starts a
fresh token. -/
def tokenStep (c : Char) (st : List (List Char) × Bool) : List (List Char) × Bool :=
  if isWsChar c then
    (st.1, true)
  else if st.2 then
    ([c] :: st.1, false)
  else
    match st.1 with
    | [] => ([[c]], false)
    | p :: ps => ((c :: p) :: ps, false)

/-- The whitespace-delimited tokens of a string: its maximal runs of
non-whitespace characters, in order. -/
def tokens (l : List Char) : List (List Char) :=
  (l.foldr tokenStep ([], true)).1

/-- `wordsCount` from `server.js`: trim, return 0 on the empty result, else
split on whitespace runs, drop empty pieces, count. -/
def wordsCount (text : List Char) : Nat :=
  let s := jsTrim text
  if s = [] then 0 else ((splitWsRuns s).filter (fun p => p ≠ [])).length

example : wordsCount ("one two three four five six".data) = 6 := by decide
example : wordsCount ("   ".data) = 0 := by decide
example : wordsCount ("".data) = 0 := by decide
example : tokens (" a  bc ".data) = [['a'], ['b', 'c']] := by decide
example : splitWsRuns (" a  bc ".data) = [[], ['a'], ['b', 'c'], []] := by decide
example : jsTrim ("  ab ".data) = ['a', 'b'] := by decide

/-- A JavaScript number: the finite values are modelled by rationals
(exact for every value the claims exercise), plus `NaN` and the two
infinities, which `Number.isFinite` rejects. -/
inductive JsNum where
  | nan : JsNum
  | posInf : JsNum
  | negInf : JsNum
  | fin (q : ℚ) : JsNum

/-- A dynamic JavaScript value, as far as the request bodies of this
server need: objects are represented by the four turn properties the code
ever reads (a missing property is `undef`; an object of another shape
reads as an object whose four relevant properties are `undef`). -/
inductive JsVal where
  | undef : JsVal
  | nullv : JsVal
  | boolv (b : Bool) : JsVal
  | numv (n : JsNum) : JsVal
  | strv (s : List Char) : JsVal
  | objv (studentText studentTranscript recordingMs aiReply : JsVal) : JsVal
  | arrv (xs : List JsVal) : JsVal

/-- `safeStr` from `server.js`: a string passes through, anything else is
replaced by the fallback. -/
def safeStr (x : JsVal) (fallback : List Char) : List Char :=
  match x with
  | JsVal.strv s => s
  | _ => fallback

/-- JavaScript truthiness of a value. -/
def truthy (x : JsVal) : Bool :=
  match x with
  | JsVal.undef => false
  | JsVal.nullv => false
  | JsVal.boolv b => b
  | JsVal.numv JsNum.nan => false
  | JsVal.numv JsNum.posInf => true
  | JsVal.numv JsNum.negInf => true
  | JsVal.numv (JsNum.fin q) => q ≠ 0
  | JsVal.strv s => s ≠ []
  | JsVal.objv _ _ _ _ => true
  | JsVal.arrv _ => true

/-- Whether `typeof x === "object"` (true for `null`, plain objects and
arrays). -/
def typeofIsObject (x : JsVal) : Bool :=
  match x with
  | JsVal.nullv => true
  | JsVal.objv _ _ _ _ => true
  | JsVal.arrv _ => true
  | _ => false

/-- The filter `(t) => t && typeof t === "object"` used by `clampTurns`. -/
def keepTurn (t : JsVal) : Bool := truthy t && typeofIsObject t

/-- Property read `t.studentText` (objects carry it, every other
object-typed value yields `undefined`). -/
def getStudentText (t : JsVal) : JsVal :=
  match t with
  | JsVal.objv a _ _ _ => a
  | _ => JsVal.undef

/-- Property read `t.studentTranscript`. -/
def getStudentTranscript (t : JsVal) : JsVal :=
  match t with
  | JsVal.objv _ b _ _ => b
  | _ => JsVal.undef

/-- Property read `t.recordingMs`. -/
def getRecordingMs (t : JsVal) : JsVal :=
  match t with
  | JsVal.objv _ _ c _ => c
  | _ => JsVal.undef

/-- Property read `t.aiReply`. -/
def getAiReply (t : JsVal) : JsVal :=
  match t with
  | JsVal.objv _ _ _ d => d
  | _ => JsVal.undef

/-- `Number.isFinite` (no coercion: only an actual finite number passes). -/
def jsIsFinite (x : JsVal) : Bool :=
  match x with
  | JsVal.numv (JsNum.fin _) => true
  | _ => false

/-- `Number.isFinite(v) ? Math.max(0, Math.floor(v)) : 0`, the coercion
`clampTurns` applies to `recordingMs`. -/
def msCoerce (x : JsVal) : Nat :=
  match x with
  | JsVal.numv (JsNum.fin q) => (max 0 ⌊q⌋).toNat
  | _ => 0

/-- A sanitized turn, the element type produced by `clampTurns`. -/
structure Turn where
  studentText : List Char
  studentTranscript : List Char
  recordingMs : Nat
  aiReply : List Char
deriving DecidableEq

/-- The per-entry sanitization in `clampTurns`'s `.map`. -/
def coerceTurn (t : JsVal) : Turn :=
  { studentText := (safeStr (getStudentText t) []).take 6000
    studentTranscript := (safeStr (getStudentTranscript t) []).take 6000
    recordingMs := msCoerce (getRecordingMs t)
    aiReply := (safeStr (getAiReply t) []).take 6000 }

/-- `clampTurns` from `server.js`: non-arrays become `[]`; otherwise keep
the object-typed entries, sanitize each, and truncate to 12. -/
def clampTurns (turns : JsVal) : List Turn :=
  match turns with
  | JsVal.arrv l => (((l.filter keepTurn).map coerceTurn).take 12)
  | _ => []

/-- `wpm` from `server.js`: `null` when `ms` is zero, otherwise the number
of words divided by the elapsed minutes, rounded (`Math.round` rounds
halves up, exactly as `round` on `ℚ` does). -/
def wpm (words ms : Nat) : Option ℤ :=
  if ms = 0 then none
  else
    let minutes : ℚ := (ms : ℚ) / 60000
    if minutes ≤ 0 then none
    else some (round ((words : ℚ) / minutes))

example : wpm 6 60000 = some 6 := by norm_num [wpm]
example : wpm 5 0 = none := by norm_num [wpm]
example : wpm 1 24000 = some 3 := by norm_num [wpm, round_eq]
example : msCoerce (JsVal.numv (JsNum.fin (-(7 : ℚ) / 2))) = 0 := by norm_num [msCoerce]
example : msCoerce (JsVal.numv (JsNum.fin ((7 : ℚ) / 2))) = 3 := by
  norm_num [msCoerce]
  rfl
example : msCoerce (JsVal.numv JsNum.nan) = 0 := by norm_num [msCoerce]

/-- The final path segment (after the last `/`), the part `path.extname`
inspects. -/
def lastSegment (l : List Char) : List Char :=
  (l.reverse.takeWhile (fun c => c ≠ '/')).reverse

/-- Model of Node's `path.extname`: the substring from the last `.` of the
final path segment to its end; the empty string when the segment has no
`.` or when its only leading character is the `.`. -/
def extname (l : List Char) : List Char :=
  let r := (lastSegment l).reverse
  match r.dropWhile (fun c => c ≠ '.') with
  | [] => []
  | [_] => []
  | _ :: _ :: _ => '.' :: (r.takeWhile (fun c => c ≠ '.')).reverse

example : extname ("clip.mp4".data) = (".mp4".data) := by decide
example : extname ("clip".data) = [] := by decide
example : extname (".bashrc".data) = [] := by decide
example : extname ("a.tar.gz".data) = (".gz".data) := by decide
example : extname ("dir.v/final".data) = [] := by decide
example : extname ("a.".data) = ['.'] := by decide

/-- Whether `needle` occurs at the very start of `haystack`. -/
def startsWith : List Char → List Char → Bool
  | _, [] => true
  | [], _ :: _ => false
  | c :: cs, d :: ds => c = d && startsWith cs ds

/-- `haystack.includes(needle)` on strings: `needle` occurs at the start
of some suffix. -/
def containsSub (haystack needle : List Char) : Bool :=
  match haystack with
  | [] => needle.isEmpty
  | _ :: rest => startsWith haystack needle || containsSub rest needle

/-- The media-type cascade of `extFromFile`: substring match in the fixed
priority order wav, mp3/mpeg, mp4/m4a, ogg, webm, with `.wav` default. -/
def mimeExt (mt : List Char) : List Char :=
  if containsSub mt ("wav".data) then (".wav".data)
  else if containsSub mt ("mpeg".data) || containsSub mt ("mp3".data) then (".mp3".data)
  else if containsSub mt ("mp4".data) || containsSub mt ("m4a".data) then (".m4a".data)
  else if containsSub mt ("ogg".data) then (".ogg".data)
  else if containsSub mt ("webm".data) then (".webm".data)
  else (".wav".data)

/-- `extFromFile` from `server.js`: lower-case the declared name, prefer
its extension; otherwise run the media-type cascade on the lower-cased
declared media type. -/
def extFromFile (origName mimetype : List Char) : List Char :=
  let orig := lowerL origName
  let byName := extname orig
  if byName ≠ [] then byName
  else mimeExt (lowerL mimetype)

/-- The extension-inference rule exactly as the claim words it, for
comparison with the code: the extension present in the declared filename
when one exists, otherwise the substring-match cascade on the declared
media type — with no case folding, which the claim does not mention. -/
def extFromFileClaim (origName mimetype : List Char) : List Char :=
  let byName := extname origName
  if byName ≠ [] then byName
  else mimeExt mimetype

example : extFromFile ("clip.mp4".data) ("audio/webm".data) = (".mp4".data) := by decide
example : extFromFile ("blob".data) ("Audio/OGG".data) = (".ogg".data) := by decide
example : extFromFile ("blob".data) ("application/xyz".data) = (".wav".data) := by decide
example : extFromFileClaim ("CLIP.MP4".data) ("".data) = (".MP4".data) := by decide
example : extFromFile ("CLIP.MP4".data) ("".data) = (".mp4".data) := by decide

/-- Decimal rendering of a natural number (template interpolation). -/
def natStr (n : Nat) : List Char := (Nat.repr n).data

/-- Decimal rendering of an integer (template interpolation). -/
def intStr (z : Int) : List Char := (Int.repr z).data

/-- `${w ?? "unknown"}`: render a possibly-null words-per-minute value. -/
def wpmStr (w : Option ℤ) : List Char :=
  match w with
  | some z => intStr z
  | none => ("unknown".data)

/-- `${s || "(empty)"}`: an empty string renders as the placeholder. -/
def orEmptyMark (s : List Char) : List Char :=
  if s = [] then ("(empty)".data) else s

/-- The fixed-format text block the `/feedback` route renders for one turn
(0-based index `idx`, printed 1-based). -/
def turnBlock (idx : Nat) (t : Turn) : List Char :=
  List.intercalate ("\n".data)
    [ ("TURN ".data) ++ natStr (idx + 1) ++ (":".data)
    , ("Student transcript: ".data) ++ orEmptyMark (jsTrim t.studentTranscript)
    , ("Student final text (after edits): ".data) ++ orEmptyMark (jsTrim t.studentText)
    , ("Recording time ms: ".data) ++ natStr t.recordingMs
    , ("Estimated WPM: ".data) ++ wpmStr (wpm (wordsCount (jsTrim t.studentTranscript)) t.recordingMs)
    , ("Computer reply: ".data) ++ orEmptyMark t.aiReply ]

/-- `compactTurns`: all turn blocks joined by a blank line. -/
def compactTurns (turns : List Turn) : List Char :=
  List.intercalate ("\n\n".data) (turns.enum.map (fun p => turnBlock p.1 p.2))

/-- `totalMs`: sum of the turns' recording durations. -/
def totalMsOf (turns : List Turn) : Nat :=
  turns.foldl (fun a t => a + t.recordingMs) 0

/-- `totalTranscript`: all transcripts space-joined, then trimmed. -/
def totalTranscriptOf (turns : List Turn) : List Char :=
  jsTrim (List.intercalate (" ".data) (turns.map (fun t => t.studentTranscript)))

/-- `totalWords` of the `/feedback` route. -/
def totalWordsOf (turns : List Turn) : Nat :=
  wordsCount (totalTranscriptOf turns)

/-- `totalWpm` of the `/feedback` route. -/
def totalWpmOf (turns : List Turn) : Option ℤ :=
  wpm (totalWordsOf turns) (totalMsOf turns)

/-- The user message assembled by the `/feedback` route. -/
def feedbackUserMsg (turns : List Turn) : List Char :=
  List.intercalate ("\n".data)
    [ ("Here is the full session data.".data)
    , ("Overall estimated WPM: ".data) ++ wpmStr (totalWpmOf turns)
        ++ (" (based on transcript words / recording time)".data)
    , []
    , compactTurns turns ]

/-- Outcome of the external completion call (not part of this repository). -/
inductive ChatOutcome where
  | ok (text : List Char) : ChatOutcome
  | err (msg : List Char) : ChatOutcome

/-- The numeric part of the `/feedback` response envelope. -/
structure FeedbackMeta where
  totalWpm : Option ℤ
  totalWords : Nat
  totalMs : Nat
  turns : Nat
deriving DecidableEq

/-- The observable behaviour of one `/feedback` request: HTTP status,
whether the completion capability was invoked, the user-message content
handed to it (empty when it was not invoked), the reply, and the metrics. -/
structure FeedbackRes where
  status : Nat
  calledChat : Bool
  sentContent : List Char
  reply : List Char
  meta : Option FeedbackMeta
deriving DecidableEq

/-- The `/feedback` route handler: clamp the turns, reject an empty list
with 400 before any external call, otherwise aggregate, truncate the
assembled text to 24000 characters, submit it, and answer 200 (or 500 on
an upstream error). -/
def feedbackRun (turnsField : JsVal) (chat : ChatOutcome) : FeedbackRes :=
  let turns := clampTurns turnsField
  if turns = [] then
    { status := 400, calledChat := false, sentContent := [], reply := [], meta := none }
  else
    let sent := (feedbackUserMsg turns).take 24000
    match chat with
    | ChatOutcome.ok reply =>
      { status := 200, calledChat := true, sentContent := sent, reply := reply,
        meta := some { totalWpm := totalWpmOf turns, totalWords := totalWordsOf turns,
                       totalMs := totalMsOf turns, turns := turns.length } }
    | ChatOutcome.err _ =>
      { status := 500, calledChat := true, sentContent := sent, reply := [], meta := none }

/-- The observable behaviour of one `/ask` request. -/
structure AskRes where
  status : Nat
  calledChat : Bool
  sentContent : List Char
  reply : List Char
deriving DecidableEq

/-- The `/ask` route handler: trim the (string-coerced) user text, reject
an empty result with 400 before any external call, otherwise submit the
clipped argument message. -/
def askRun (userTextField : JsVal) (chat : ChatOutcome) : AskRes :=
  let userText := jsTrim (safeStr userTextField [])
  if userText = [] then
    { status := 400, calledChat := false, sentContent := [], reply := [] }
  else
    let content := (("My argument:\n".data) ++ userText).take 6000
    match chat with
    | ChatOutcome.ok reply =>
      { status := 200, calledChat := true, sentContent := content, reply := reply }
    | ChatOutcome.err _ =>
      { status := 500, calledChat := true, sentContent := content, reply := [] }

/-- One step (right to left) of `text.split("\n")`: every newline is a
separator, empty pieces are kept. -/
def splitNlStep (c : Char) (acc : List (List Char)) : List (List Char) :=
  match acc with
  | [] => [[c]]
  | p :: ps => if c = '\n' then [] :: p :: ps else (c :: p) :: ps

/-- `text.split("\n")`. -/
def splitNl (l : List Char) : List (List Char) := l.foldr splitNlStep [[]]

/-- A character of the regexp class `[-*\d.\s]` stripped from the start of
each fallback line. -/
def isStripChar (c : Char) : Bool :=
  c = '-' || c = '*' || c = '.' || c.isDigit || isWsChar c

/-- The `/topics` line-based fallback parse: split into lines, strip each
line's leading bullet/numbering characters and trim it, drop blanks, keep
at most 10. -/
def fallbackTopics (text : List Char) : List (List Char) :=
  ((((splitNl text).map (fun s => jsTrim (s.dropWhile isStripChar)))).filter
    (fun s => s ≠ [])).take 10

/-- How `JSON.parse` fared on the completion text: it threw, it produced
an array (whose entries are recorded after `String(t)` coercion), or it
produced a non-array value. -/
inductive ParseOutcome where
  | failed : ParseOutcome
  | array (xs : List (List Char)) : ParseOutcome
  | nonArray : ParseOutcome

/-- The observable behaviour of one `/topics` request. -/
structure TopicsRes where
  status : Nat
  topics : List (List Char)
deriving DecidableEq

/-- The `/topics` route handler after the completion call: parse the text
as a JSON array; on a parse failure fall back to the line-based parse;
clip to 10 entries; substitute the default topic for an empty list; the
only error response is for a failed completion call. -/
def topicsRun (chat : ChatOutcome) (parse : ParseOutcome) : TopicsRes :=
  match chat with
  | ChatOutcome.err _ => { status := 500, topics := [] }
  | ChatOutcome.ok text =>
    let topics0 : List (List Char) :=
      match parse with
      | ParseOutcome.array xs => xs.filter (fun s => s ≠ [])
      | ParseOutcome.nonArray => []
      | ParseOutcome.failed => fallbackTopics text
    let topics1 := topics0.take 10
    let topics2 :=
      if topics1 = [] then [("Should schools allow AI tools for homework?".data)]
      else topics1
    { status := 200, topics := topics2 }

/-- One `/stt` request as the handler sees it: whether multer stored a
file, the path it stored it under, and the declared name and media type. -/
structure SttReq where
  filePresent : Bool
  tmpPath : List Char
  origName : List Char
  mimetype : List Char

/-- Outcome of the external transcription call (not part of this
repository); an error optionally carries an upstream HTTP status. -/
inductive TranscribeOutcome where
  | ok (text : List Char) : TranscribeOutcome
  | err (status : Option Nat) (msg : List Char) : TranscribeOutcome

/-- The observable behaviour of one `/stt` request. -/
structure SttRes where
  status : Nat
  transcribeCalled : Bool
  text : Option (List Char)
deriving DecidableEq

/-- `fs.unlinkSync(p)` on the modelled disk (a list of existing paths). -/
def erasePath (p : List Char) (disk : List (List Char)) : List (List Char) :=
  disk.filter (fun q => q ≠ p)

/-- The `finally` block of the `/stt` handler: delete the post-rename path
when it exists on disk, else the pre-rename path when that exists; either
variable may still be `null`. -/
def sttCleanup (tmpPath finalPath : Option (List Char)) (disk : List (List Char)) :
    List (List Char) :=
  match finalPath with
  | some f =>
    if f ∈ disk then erasePath f disk
    else
      match tmpPath with
      | some t => if t ∈ disk then erasePath t disk else disk
      | none => disk
  | none =>
    match tmpPath with
    | some t => if t ∈ disk then erasePath t disk else disk
    | none => disk

/-- The `/stt` route handler over the modelled disk.  `renameOk` is
whether `fs.renameSync` succeeds (its failure is caught and answered as a
500 like any other thrown error), `size` is what `fs.statSync` reports.
Note `finalPath` is assigned before the rename, so the cleanup block sees
it on every path past the missing-file check. -/
def sttRun (req : SttReq) (renameOk : Bool) (size : Nat) (tr : TranscribeOutcome)
    (disk : List (List Char)) : SttRes × List (List Char) :=
  if req.filePresent = false then
    ({ status := 400, transcribeCalled := false, text := none },
      sttCleanup none none disk)
  else
    let tmpPath := req.tmpPath
    let finalPath := tmpPath ++ extFromFile req.origName req.mimetype
    if renameOk = false then
      ({ status := 500, transcribeCalled := false, text := none },
        sttCleanup (some tmpPath) (some finalPath) disk)
    else
      let disk1 := finalPath :: erasePath tmpPath disk
      if size < 2500 then
        ({ status := 400, transcribeCalled := false, text := none },
          sttCleanup (some tmpPath) (some finalPath) disk1)
      else
        match tr with
        | TranscribeOutcome.ok text =>
          ({ status := 200, transcribeCalled := true, text := some text },
            sttCleanup (some tmpPath) (some finalPath) disk1)
        | TranscribeOutcome.err st _ =>
          ({ status := st.getD 500, transcribeCalled := true, text := none },
            sttCleanup (some tmpPath) (some finalPath) disk1)

/-! ### Relating `split(/\s+/).filter(Boolean)` to the token list -/

/-- The simulation invariant between the state of the split fold and the
state of the token fold: the split pieces filtered of empties are exactly
the tokens; when the token fold expects a fresh token the split fold's
current piece is empty; when it is mid-token the split fold is mid-piece
with a non-empty current piece. -/
def SInv (s t : List (List Char) × Bool) : Prop :=
  (s.1 ≠ [] ∧ s.1.filter (fun p => p ≠ []) = t.1) ∧
  (t.2 = true → s.1.head? = some []) ∧
  (t.2 = false → s.2 = false ∧ ∃ p ps, s.1 = p :: ps ∧ p ≠ [])

lemma SInv_init : SInv ([[]], false) ([], true) := by
  simp [SInv]

lemma SInv_step (c : Char) (s t : List (List Char) × Bool) (h : SInv s t) :
    SInv (splitStep c s) (tokenStep c t) := by
  obtain ⟨ps, bs⟩ := s
  obtain ⟨ts, bt⟩ := t
  obtain ⟨⟨hne, hf⟩, hbt, hbf⟩ := h
  dsimp only at hne hf hbt hbf
  cases hw : isWsChar c with
  | true =>
    have htok : tokenStep c (ts, bt) = (ts, true) := by
      simp [tokenStep, hw]
    cases hbs : bs with
    | false =>
      have hsplit : splitStep c (ps, false) = ([] :: ps, true) := by
        simp [splitStep, hw]
      rw [htok, hsplit]
      refine ⟨⟨by simp, by simpa using hf⟩, ?_, ?_⟩
      · intro _
        rfl
      · intro hcontra
        simp at hcontra
    | true =>
      have hbtt : bt = true := by
        cases hbtv : bt with
        | true => rfl
        | false =>
          have := (hbf hbtv).1
          rw [hbs] at this
          simp at this
      subst hbtt
      have hsplit : splitStep c (ps, true) = (ps, true) := by
        simp [splitStep, hw]
      rw [htok, hsplit]
      refine ⟨⟨hne, hf⟩, ?_, ?_⟩
      · intro _
        exact hbt rfl
      · intro hcontra
        simp at hcontra
  | false =>
    obtain ⟨p, ps', hps⟩ : ∃ p ps', ps = p :: ps' := by
      cases ps with
      | nil => exact absurd rfl hne
      | cons a as => exact ⟨a, as, rfl⟩
    subst hps
    cases hbtv : bt with
    | true =>
      have hp0 : p = [] := by
        have := hbt hbtv
        simpa using this
      subst hp0
      have hfts : ps'.filter (fun q => q ≠ []) = ts := by
        simpa using hf
      have hsplit : splitStep c ([] :: ps', bs) = ([c] :: ps', false) := by
        simp [splitStep, hw]
      have htok : tokenStep c (ts, true) = ([c] :: ts, false) := by
        simp [tokenStep, hw]
      rw [hsplit, htok]
      refine ⟨⟨by simp, by simpa using hfts⟩, ?_, ?_⟩
      · intro hcontra
        simp at hcontra
      · intro _
        exact ⟨rfl, [c], ps', rfl, by simp⟩
    | false =>
      obtain ⟨hbs, q, qs, hq, hqne⟩ := hbf hbtv
      obtain ⟨hq1, hq2⟩ := List.cons.inj hq
      subst hbs
      rw [← hq1] at hqne
      have hts : ts = p :: ps'.filter (fun r => r ≠ []) := by
        rw [← hf]
        simp [hqne]
      subst hts
      have hsplit : splitStep c (p :: ps', false) = ((c :: p) :: ps', false) := by
        simp [splitStep, hw]
      have htok :
          tokenStep c (p :: ps'.filter (fun r => r ≠ []), false) =
            ((c :: p) :: ps'.filter (fun r => r ≠ []), false) := by
        simp [tokenStep, hw]
      rw [hsplit, htok]
      refine ⟨⟨by simp, by simp⟩, ?_, ?_⟩
      · intro hcontra
        simp at hcontra
      · intro _
        exact ⟨rfl, c :: p, ps', rfl, by simp⟩

lemma splitTok_SInv (l : List Char) :
    SInv (l.foldr splitStep ([[]], false)) (l.foldr tokenStep ([], true)) := by
  induction l with
  | nil => exact SInv_init
  | cons c cs ih =>
    simpa using SInv_step c _ _ ih

/-- The pieces produced by `split(/\s+/)` with the empty pieces dropped
are exactly the maximal non-whitespace runs. -/
lemma filter_splitWsRuns (l : List Char) :
    (splitWsRuns l).filter (fun p => p ≠ []) = tokens l :=
  (splitTok_SInv l).1.2

lemma tokenFold_all_ws (w : List Char) (h : ∀ c ∈ w, isWsChar c = true) :
    w.foldr tokenStep ([], true) = ([], true) := by
  induction w with
  | nil => rfl
  | cons c cs ih =>
    rw [List.foldr_cons, ih (fun d hd => h d (List.mem_cons_of_mem c hd))]
    simp [tokenStep, h c (List.mem_cons_self c cs)]

/-- A whitespace-only string has no tokens. -/
lemma tokens_all_ws (w : List Char) (h : ∀ c ∈ w, isWsChar c = true) :
    tokens w = [] := by
  unfold tokens
  rw [tokenFold_all_ws w h]

/-- Appending trailing whitespace does not change the token list. -/
lemma tokens_append_all_ws (l w : List Char) (h : ∀ c ∈ w, isWsChar c = true) :
    tokens (l ++ w) = tokens l := by
  unfold tokens
  rw [List.foldr_append, tokenFold_all_ws w h]

/-- Removing leading whitespace does not change the token list. -/
lemma tokens_dropWhile_ws (l : List Char) :
    tokens (l.dropWhile isWsChar) = tokens l := by
  induction l with
  | nil => rfl
  | cons c cs ih =>
    cases hw : isWsChar c with
    | true =>
      rw [List.dropWhile_cons_of_pos hw, ih]
      unfold tokens
      rw [List.foldr_cons]
      simp [tokenStep, hw]
    | false =>
      rw [List.dropWhile_cons_of_neg (by simp [hw])]

/-- Removing trailing whitespace does not change the token list. -/
lemma tokens_trimRight (l : List Char) : tokens (trimRight l) = tokens l := by
  have hdecomp : l = trimRight l ++ (l.reverse.takeWhile isWsChar).reverse := by
    conv_lhs => rw [← l.reverse_reverse]
    conv_lhs =>
      rw [← List.takeWhile_append_dropWhile (p := isWsChar) (l := l.reverse)]
    rw [List.reverse_append]
    rfl
  conv_rhs => rw [hdecomp]
  rw [tokens_append_all_ws]
  intro c hc
  rw [List.mem_reverse] at hc
  exact List.mem_takeWhile_imp hc

/-- Trimming does not change the token list. -/
lemma tokens_jsTrim (l : List Char) : tokens (jsTrim l) = tokens l := by
  unfold jsTrim
  rw [tokens_dropWhile_ws, tokens_trimRight]

/-- `wordsCount` counts exactly the whitespace-delimited tokens. -/
lemma wordsCount_eq_tokens_length (s : List Char) :
    wordsCount s = (tokens s).length := by
  unfold wordsCount
  cases h : decide (jsTrim s = []) with
  | true =>
    have h' : jsTrim s = [] := of_decide_eq_true h
    rw [← tokens_jsTrim s, h']
    simp [h', tokens]
  | false =>
    have h' : ¬jsTrim s = [] := of_decide_eq_false h
    simp only [h', if_false, if_neg h']
    rw [filter_splitWsRuns, tokens_jsTrim]

/-- An empty or whitespace-only string counts 0 words. -/
lemma wordsCount_all_ws (s : List Char) (h : ∀ c ∈ s, isWsChar c = true) :
    wordsCount s = 0 := by
  rw [wordsCount_eq_tokens_length, tokens_all_ws s h]
  rfl

/-! ### Disk lemmas for the `/stt` lifecycle -/

lemma not_mem_erasePath_self (p : List Char) (d : List (List Char)) :
    p ∉ erasePath p d := by
  simp [erasePath]

lemma mem_of_mem_erasePath {q p : List Char} {d : List (List Char)}
    (h : q ∈ erasePath p d) : q ∈ d := by
  simp only [erasePath, List.mem_filter] at h
  exact h.1

lemma ne_of_mem_erasePath {q p : List Char} {d : List (List Char)}
    (h : q ∈ erasePath p d) : q ≠ p := by
  simp only [erasePath, List.mem_filter, decide_eq_true_eq] at h
  exact h.2

/-- After a successful rename the cleanup block removes the renamed file,
and the pre-rename path is gone as well. -/
lemma stt_cleanup_post_rename (tmp fin : List Char) (disk : List (List Char)) :
    tmp ∉ sttCleanup (some tmp) (some fin) (fin :: erasePath tmp disk) ∧
    fin ∉ sttCleanup (some tmp) (some fin) (fin :: erasePath tmp disk) := by
  have hfin : fin ∈ fin :: erasePath tmp disk := List.mem_cons_self _ _
  unfold sttCleanup
  dsimp only
  rw [if_pos hfin]
  constructor
  · intro hmem
    have h1 := mem_of_mem_erasePath hmem
    have h2 := ne_of_mem_erasePath hmem
    rcases List.mem_cons.mp h1 with h3 | h3
    · exact h2 h3
    · exact not_mem_erasePath_self tmp disk h3
  · exact not_mem_erasePath_self fin _

/-- When the rename threw, the cleanup block falls back to the pre-rename
path; afterwards neither path exists (given the fresh upload name did not
collide with an existing file). -/
lemma stt_cleanup_no_rename (tmp fin : List Char) (disk : List (List Char))
    (hfresh : fin ∉ disk) :
    tmp ∉ sttCleanup (some tmp) (some fin) disk ∧
    fin ∉ sttCleanup (some tmp) (some fin) disk := by
  unfold sttCleanup
  dsimp only
  rw [if_neg hfresh]
  by_cases htmp : tmp ∈ disk
  · rw [if_pos htmp]
    exact ⟨not_mem_erasePath_self tmp disk, fun h => hfresh (mem_of_mem_erasePath h)⟩
  · rw [if_neg htmp]
    exact ⟨htmp, hfresh⟩

/-- The final disk state of one `/stt` request with an uploaded file: the
cleanup block runs on the renamed disk when the rename succeeded and on
the untouched disk otherwise. -/
lemma sttRun_disk (req : SttReq) (renameOk : Bool) (size : Nat)
    (tr : TranscribeOutcome) (disk : List (List Char))
    (hfile : req.filePresent = true) :
    (sttRun req renameOk size tr disk).2 =
      if renameOk = false then
        sttCleanup (some req.tmpPath)
          (some (req.tmpPath ++ extFromFile req.origName req.mimetype)) disk
      else
        sttCleanup (some req.tmpPath)
          (some (req.tmpPath ++ extFromFile req.origName req.mimetype))
          ((req.tmpPath ++ extFromFile req.origName req.mimetype)
            :: erasePath req.tmpPath disk) := by
  unfold sttRun
  rw [if_neg (by simp [hfile])]
  cases renameOk with
  | false => simp
  | true =>
    by_cases hsize : size < 2500
    · simp [hsize]
    · cases tr with
      | ok text => simp [hsize]
      | err st msg => simp [hsize]

/-- C1: for every `/stt` request with an uploaded file, no temporary
artifact for the request remains on disk after the handler finishes — on
every exit path: success, the `TooSmall` rejection, an upstream
transcription error, and even a failed rename (in which case the
pre-rename path is the one removed).  The hypothesis says the fresh
upload name does not collide with a pre-existing file (multer assigns a
distinct temporary name per request). -/
theorem stt_cleanup_every_exit (req : SttReq) (renameOk : Bool) (size : Nat)
    (tr : TranscribeOutcome) (disk : List (List Char))
    (hfile : req.filePresent = true)
    (hfresh : req.tmpPath ++ extFromFile req.origName req.mimetype ∉ disk) :
    req.tmpPath ∉ (sttRun req renameOk size tr disk).2 ∧
    req.tmpPath ++ extFromFile req.origName req.mimetype ∉
      (sttRun req renameOk size tr disk).2 := by
  rw [sttRun_disk req renameOk size tr disk hfile]
  cases renameOk with
  | false =>
    rw [if_pos rfl]
    exact stt_cleanup_no_rename _ _ _ hfresh
  | true =>
    rw [if_neg (by simp)]
    exact stt_cleanup_post_rename _ _ _

/-- A concrete `/stt` request used by witnesses: a stored upload `tmp/abc`
with declared name `clip.mp4`. -/
def mp4Req : SttReq where
  filePresent := true
  tmpPath := ("tmp/abc".data)
  origName := ("clip.mp4".data)
  mimetype := ("audio/mp4".data)

/-- A concrete `/stt` request used by witnesses: a stored upload `tmp/a`
with declared name `a.wav`. -/
def wavReq : SttReq where
  filePresent := true
  tmpPath := ("tmp/a".data)
  origName := ("a.wav".data)
  mimetype := ("audio/wav".data)

/-- A concrete `/stt` request with no uploaded file. -/
def noFileReq : SttReq where
  filePresent := false
  tmpPath := []
  origName := []
  mimetype := []

/-- Witness for C1 at a concrete request: a stored upload `tmp/abc` with
declared name `clip.mp4`, a successful rename and transcription; both
candidate paths are absent from the final disk. -/
theorem stt_cleanup_every_exit_witness :
    (("tmp/abc".data) ∉
      (sttRun mp4Req true 3000 (TranscribeOutcome.ok ("hi".data))
        [("tmp/abc".data)]).2) ∧
    (("tmp/abc".data) ++ extFromFile ("clip.mp4".data) ("audio/mp4".data) ∉
      (sttRun mp4Req true 3000 (TranscribeOutcome.ok ("hi".data))
        [("tmp/abc".data)]).2) :=
  stt_cleanup_every_exit mp4Req true 3000 (TranscribeOutcome.ok ("hi".data))
    [("tmp/abc".data)] rfl (by decide)

/-- C5: with an uploaded file and a successful rename, a size strictly
below 2500 bytes is rejected with HTTP 400 before any transcription call,
while a size of at least 2500 (in particular exactly 2500) proceeds to
the transcription call. -/
theorem stt_size_threshold (req : SttReq) (size : Nat) (tr : TranscribeOutcome)
    (disk : List (List Char)) (hfile : req.filePresent = true) :
    (size < 2500 →
      (sttRun req true size tr disk).1.status = 400 ∧
      (sttRun req true size tr disk).1.transcribeCalled = false) ∧
    (2500 ≤ size →
      (sttRun req true size tr disk).1.transcribeCalled = true) := by
  constructor
  · intro hsize
    unfold sttRun
    rw [if_neg (by simp [hfile])]
    simp [hsize]
  · intro hsize
    have hns : ¬size < 2500 := Nat.not_lt.mpr hsize
    unfold sttRun
    rw [if_neg (by simp [hfile])]
    cases tr with
    | ok text => simp [hns]
    | err st msg => simp [hns]

/-- Witness for C5 at sizes 2499 and 2500. -/
theorem stt_size_threshold_witness :
    ((sttRun wavReq true 2499 (TranscribeOutcome.ok ("hi".data)) []).1.status = 400 ∧
      (sttRun wavReq true 2499
        (TranscribeOutcome.ok ("hi".data)) []).1.transcribeCalled = false) ∧
    (sttRun wavReq true 2500
      (TranscribeOutcome.ok ("hi".data)) []).1.transcribeCalled = true :=
  ⟨(stt_size_threshold wavReq 2499 (TranscribeOutcome.ok ("hi".data)) [] rfl).1
      (by decide),
   (stt_size_threshold wavReq 2500 (TranscribeOutcome.ok ("hi".data)) [] rfl).2
      (by decide)⟩

/-- C6: a missing or empty required field is answered with HTTP 400 and no
external call is attempted: missing/empty turns on `/feedback`, missing or
empty user text on `/ask`, and a missing audio file on `/stt`. -/
theorem validation_rejects_before_external_call :
    (∀ (turnsField : JsVal) (chat : ChatOutcome),
      turnsField = JsVal.undef ∨ turnsField = JsVal.arrv [] →
      (feedbackRun turnsField chat).status = 400 ∧
      (feedbackRun turnsField chat).calledChat = false) ∧
    (∀ (userTextField : JsVal) (chat : ChatOutcome),
      userTextField = JsVal.undef ∨ userTextField = JsVal.strv [] →
      (askRun userTextField chat).status = 400 ∧
      (askRun userTextField chat).calledChat = false) ∧
    (∀ (req : SttReq) (renameOk : Bool) (size : Nat) (tr : TranscribeOutcome)
      (disk : List (List Char)), req.filePresent = false →
      (sttRun req renameOk size tr disk).1.status = 400 ∧
      (sttRun req renameOk size tr disk).1.transcribeCalled = false) := by
  refine ⟨?_, ?_, ?_⟩
  · intro turnsField chat h
    rcases h with h | h
    · subst h
      constructor <;> rfl
    · subst h
      constructor <;> rfl
  · intro userTextField chat h
    rcases h with h | h
    · subst h
      constructor <;> rfl
    · subst h
      constructor <;> rfl
  · intro req renameOk size tr disk h
    unfold sttRun
    rw [if_pos h]
    constructor <;> rfl

/-- Witness for C6 at concrete requests: absent turns, absent user text,
absent audio file. -/
theorem validation_rejects_before_external_call_witness :
    ((feedbackRun JsVal.undef (ChatOutcome.ok ("r".data))).status = 400 ∧
      (feedbackRun JsVal.undef (ChatOutcome.ok ("r".data))).calledChat = false) ∧
    ((askRun JsVal.undef (ChatOutcome.ok ("r".data))).status = 400 ∧
      (askRun JsVal.undef (ChatOutcome.ok ("r".data))).calledChat = false) ∧
    ((sttRun noFileReq true 9000
        (TranscribeOutcome.ok ("hi".data)) []).1.status = 400 ∧
      (sttRun noFileReq true 9000
        (TranscribeOutcome.ok ("hi".data)) []).1.transcribeCalled = false) :=
  ⟨validation_rejects_before_external_call.1 JsVal.undef (ChatOutcome.ok ("r".data))
      (Or.inl rfl),
   validation_rejects_before_external_call.2.1 JsVal.undef (ChatOutcome.ok ("r".data))
      (Or.inl rfl),
   validation_rejects_before_external_call.2.2 noFileReq
      true 9000 (TranscribeOutcome.ok ("hi".data)) [] rfl⟩

/-- C3: for non-negative integers, the speaking rate is
`round(wordCount / (durationMs / 60000))` whenever the duration is
positive, and undefined (`null`, rendered "unknown") when it is zero; the
function is total, so a zero duration can never raise a division
failure. -/
theorem wpm_spec (words ms : Nat) :
    (ms = 0 → wpm words ms = none) ∧
    (0 < ms → wpm words ms = some (round ((words : ℚ) / ((ms : ℚ) / 60000)))) := by
  constructor
  · intro h
    simp [wpm, h]
  · intro h
    have h0 : ¬ms = 0 := Nat.pos_iff_ne_zero.mp h
    have hpos : (0 : ℚ) < (ms : ℚ) / 60000 :=
      div_pos (by exact_mod_cast h) (by norm_num)
    have hm : ¬((ms : ℚ) / 60000 ≤ 0) := not_le.mpr hpos
    simp [wpm, h0, hm]

/-- Witness for C3 at a positive and at a zero duration. -/
theorem wpm_spec_witness :
    wpm 6 60000 = some (round ((6 : ℚ) / ((60000 : ℚ) / 60000))) ∧
    wpm 5 0 = none :=
  ⟨(wpm_spec 6 60000).2 (by norm_num), (wpm_spec 5 0).1 rfl⟩

/-- C7: whatever the submitted turns, the user-message text handed to the
external summarization capability by `/feedback` never exceeds 24000
characters. -/
theorem feedback_prompt_length_bound (turnsField : JsVal) (chat : ChatOutcome) :
    (feedbackRun turnsField chat).sentContent.length ≤ 24000 := by
  unfold feedbackRun
  by_cases h : clampTurns turnsField = []
  · simp [h]
  · cases chat with
    | ok reply =>
      simp only [h, if_neg h]
      calc ((feedbackUserMsg (clampTurns turnsField)).take 24000).length
          ≤ 24000 := List.length_take_le _ _
    | err msg =>
      simp only [h, if_neg h]
      calc ((feedbackUserMsg (clampTurns turnsField)).take 24000).length
          ≤ 24000 := List.length_take_le _ _

/-- An object entry whose `studentText` holds a number instead of a
string: well-typed as a JavaScript object, malformed per the claim. -/
def wrongTypedEntry : JsVal :=
  JsVal.objv (JsVal.numv (JsNum.fin 5)) JsVal.undef JsVal.undef JsVal.undef

/-- The 13th submitted entry of the counterexample list. -/
def turn13Entry : JsVal :=
  JsVal.objv JsVal.undef (JsVal.strv ("t13".data)) JsVal.undef JsVal.undef

/-- A well-formed filler entry. -/
def fillerEntry : JsVal :=
  JsVal.objv JsVal.undef (JsVal.strv ("x".data)) JsVal.undef JsVal.undef

/-- 13 submitted turns whose first entry is a bare number (dropped by the
filter): entry 13 is `turn13Entry`. -/
def thirteenSubmitted : List JsVal :=
  JsVal.numv (JsNum.fin 1) :: (List.replicate 11 fillerEntry ++ [turn13Entry])

/-- Counterexample to C2 as stated: (a) an object entry with a wrong-typed
field is retained (with the field defaulted), not dropped; (b) with 13
submitted turns whose first entry is malformed, the 13th submitted turn's
transcript survives into the processed list, so the output can reflect
submitted turn 13. -/
theorem clampTurns_claim_counterexample :
    clampTurns (JsVal.arrv [wrongTypedEntry]) =
      [{ studentText := [], studentTranscript := [], recordingMs := 0, aiReply := [] }] ∧
    (clampTurns (JsVal.arrv thirteenSubmitted)).length = 12 ∧
    (clampTurns (JsVal.arrv thirteenSubmitted)).getLast? =
      some { studentText := [], studentTranscript := ("t13".data),
             recordingMs := 0, aiReply := [] } := by
  refine ⟨by decide, by decide, by decide⟩

/-- C2 as amended: the truncation to 12 happens after non-object entries
are dropped (object entries with wrong-typed fields are retained with
defaulted fields, see C10), so exactly the first 12 retained entries are
processed and the output never depends on the 13th or later retained
entry. -/
theorem clampTurns_truncation_after_filter :
    (∀ v : JsVal, (clampTurns v).length ≤ 12) ∧
    (∀ l : List JsVal,
      clampTurns (JsVal.arrv l) = ((l.filter keepTurn).take 12).map coerceTurn) ∧
    (∀ l : List JsVal,
      clampTurns (JsVal.arrv l) =
        clampTurns (JsVal.arrv ((l.filter keepTurn).take 12))) := by
  have hmap : ∀ l : List JsVal,
      clampTurns (JsVal.arrv l) = ((l.filter keepTurn).take 12).map coerceTurn := by
    intro l
    show ((l.filter keepTurn).map coerceTurn).take 12 = _
    rw [List.map_take]
  refine ⟨?_, hmap, ?_⟩
  · intro v
    cases v with
    | arrv l =>
      show (((l.filter keepTurn).map coerceTurn).take 12).length ≤ 12
      exact List.length_take_le _ _
    | undef => exact Nat.zero_le _
    | nullv => exact Nat.zero_le _
    | boolv b => exact Nat.zero_le _
    | numv n => exact Nat.zero_le _
    | strv s => exact Nat.zero_le _
    | objv a b c d => exact Nat.zero_le _
  · intro l
    rw [hmap, hmap]
    have hfilter : ((l.filter keepTurn).take 12).filter keepTurn =
        (l.filter keepTurn).take 12 := by
      apply List.filter_eq_self.mpr
      intro a ha
      exact List.of_mem_filter (List.take_subset _ _ ha)
    rw [hfilter, List.take_take]
    norm_num

/-- C10: every entry retained by `clampTurns` carries strings of length at
most 6000 in its three text fields; `recordingMs` is coerced to a
non-negative integer by flooring finite values and clamping at 0, with
every non-finite or non-numeric value becoming 0; and an object entry
with wrong-typed fields is retained with these defaults rather than
dropped (a non-string field defaults to the empty string). -/
theorem clampTurns_entry_invariants :
    (∀ (v : JsVal) (t : Turn), t ∈ clampTurns v →
      t.studentText.length ≤ 6000 ∧ t.studentTranscript.length ≤ 6000 ∧
      t.aiReply.length ≤ 6000) ∧
    (∀ q : ℚ, msCoerce (JsVal.numv (JsNum.fin q)) = (max 0 ⌊q⌋).toNat) ∧
    (∀ x : JsVal, jsIsFinite x = false → msCoerce x = 0) ∧
    (∀ a b c d : JsVal,
      clampTurns (JsVal.arrv [JsVal.objv a b c d]) = [coerceTurn (JsVal.objv a b c d)]) ∧
    (∀ x : JsVal, (∀ s : List Char, x ≠ JsVal.strv s) → safeStr x [] = []) := by
  refine ⟨?_, ?_, ?_, ?_, ?_⟩
  · intro v t ht
    have hform : ∃ a, t = coerceTurn a := by
      cases v with
      | arrv l =>
        have h1 : t ∈ ((l.filter keepTurn).map coerceTurn).take 12 := ht
        have h2 : t ∈ (l.filter keepTurn).map coerceTurn := List.take_subset _ _ h1
        obtain ⟨a, _, ha⟩ := List.mem_map.mp h2
        exact ⟨a, ha.symm⟩
      | undef => cases ht
      | nullv => cases ht
      | boolv b => cases ht
      | numv n => cases ht
      | strv s => cases ht
      | objv a b c d => cases ht
    obtain ⟨a, ha⟩ := hform
    subst ha
    exact ⟨List.length_take_le _ _, List.length_take_le _ _, List.length_take_le _ _⟩
  · intro q
    rfl
  · intro x h
    cases x with
    | numv n =>
      cases n with
      | fin q => simp [jsIsFinite] at h
      | nan => rfl
      | posInf => rfl
      | negInf => rfl
    | undef => rfl
    | nullv => rfl
    | boolv b => rfl
    | strv s => rfl
    | objv a b c d => rfl
    | arrv xs => rfl
  · intro a b c d
    rfl
  · intro x h
    cases x with
    | strv s => exact absurd rfl (h s)
    | undef => rfl
    | nullv => rfl
    | boolv b => rfl
    | numv n => rfl
    | objv a b c d => rfl
    | arrv xs => rfl

/-- Witness for C10 at a concrete list: the wrong-typed entry is retained
with defaulted fields satisfying all the bounds. -/
theorem clampTurns_entry_invariants_witness :
    ((({ studentText := [], studentTranscript := [], recordingMs := 0,
         aiReply := [] } : Turn).studentText.length ≤ 6000 ∧
      ({ studentText := [], studentTranscript := [], recordingMs := 0,
         aiReply := [] } : Turn).studentTranscript.length ≤ 6000 ∧
      ({ studentText := [], studentTranscript := [], recordingMs := 0,
         aiReply := [] } : Turn).aiReply.length ≤ 6000) ∧
    msCoerce (JsVal.numv JsNum.nan) = 0 ∧
    safeStr (JsVal.numv (JsNum.fin 5)) [] = []) :=
  ⟨clampTurns_entry_invariants.1 (JsVal.arrv [wrongTypedEntry])
      { studentText := [], studentTranscript := [], recordingMs := 0, aiReply := [] }
      (by decide),
   clampTurns_entry_invariants.2.2.1 (JsVal.numv JsNum.nan) rfl,
   clampTurns_entry_invariants.2.2.2.2 (JsVal.numv (JsNum.fin 5))
      (fun s h => by cases h)⟩

/-- Counterexample to C4 as stated: for the declared name `"CLIP.MP4"` the
extension present in the declared filename is `".MP4"`, but the code
lower-cases the name first and infers `".mp4"`, so the inferred extension
is not "the extension present in the declared filename". -/
theorem extFromFile_claim_counterexample :
    extFromFileClaim ("CLIP.MP4".data) [] = (".MP4".data) ∧
    extFromFile ("CLIP.MP4".data) [] = (".mp4".data) ∧
    (".MP4".data) ≠ (".mp4".data) := by
  refine ⟨by decide, by decide, by decide⟩

/-- C4 as amended: the code behaves exactly as the claim's rule applied to
the lower-cased declared name and lower-cased declared media type — the
(lower-cased) filename extension wins when present, otherwise the
substring cascade wav, mp3/mpeg, mp4/m4a, ogg, webm applies, defaulting
to `.wav`; `"clip.mp4"` yields `.mp4` regardless of media type, and a
media type containing `"ogg"` with no filename extension yields `.ogg`
when no earlier cascade entry matches. -/
theorem extFromFile_lowercase_spec :
    (∀ name mt : List Char,
      extFromFile name mt = extFromFileClaim (lowerL name) (lowerL mt)) ∧
    (∀ mt : List Char, extFromFile ("clip.mp4".data) mt = (".mp4".data)) ∧
    (∀ name mt : List Char, extname (lowerL name) = [] →
      extFromFile name mt = mimeExt (lowerL mt)) ∧
    extFromFile ("blob".data) ("audio/ogg".data) = (".ogg".data) ∧
    extFromFile ("blob".data) ("application/octet-stream".data) = (".wav".data) := by
  refine ⟨?_, ?_, ?_, by decide, by decide⟩
  · intro name mt
    rfl
  · intro mt
    rfl
  · intro name mt h
    simp [extFromFile, h]

/-- Witness for C4's amended theorem at a concrete extension-less name. -/
theorem extFromFile_lowercase_spec_witness :
    extname (lowerL ("blob".data)) = [] ∧
    extFromFile ("blob".data) ("Audio/OGG".data) =
      mimeExt (lowerL ("Audio/OGG".data)) :=
  ⟨by decide,
   extFromFile_lowercase_spec.2.2.1 ("blob".data) ("Audio/OGG".data) (by decide)⟩

/-- The single-turn list of the claim's concrete example, as submitted. -/
def sixWordTurnObj : JsVal :=
  JsVal.objv JsVal.undef (JsVal.strv ("one two three four five six".data))
    (JsVal.numv (JsNum.fin 60000)) JsVal.undef

/-- The sanitized form of `sixWordTurnObj`. -/
def sixWordTurn : Turn :=
  { studentText := [], studentTranscript := ("one two three four five six".data),
    recordingMs := 60000, aiReply := [] }

/-- C8: a turn's word count is the number of whitespace-delimited tokens
of its transcript; an empty or whitespace-only transcript counts exactly
0 words; and for the single-turn list with transcript
`"one two three four five six"` and 60000 ms of recording, the `/feedback`
aggregate reports 6 words and an overall rate of 6. -/
theorem wordsCount_tokens_spec :
    (∀ s : List Char, wordsCount s = (tokens s).length) ∧
    (∀ s : List Char, (∀ c ∈ s, isWsChar c = true) → wordsCount s = 0) ∧
    (feedbackRun (JsVal.arrv [sixWordTurnObj]) (ChatOutcome.ok ("ok".data))).meta =
      some { totalWpm := some 6, totalWords := 6, totalMs := 60000, turns := 1 } := by
  refine ⟨wordsCount_eq_tokens_length, wordsCount_all_ws, ?_⟩
  have h : clampTurns (JsVal.arrv [sixWordTurnObj]) = [sixWordTurn] := by decide
  have hw : totalWordsOf [sixWordTurn] = 6 := by decide
  have hm : totalMsOf [sixWordTurn] = 60000 := by decide
  have hne : [sixWordTurn] ≠ ([] : List Turn) := by decide
  simp [feedbackRun, h, hne, totalWpmOf, hw, hm]
  norm_num [wpm]

/-- Witness for C8 at a concrete whitespace-only transcript. -/
theorem wordsCount_tokens_spec_witness :
    wordsCount (" \t ".data) = 0 :=
  wordsCount_tokens_spec.2.1 (" \t ".data) (by decide)

/-- If the head of `dropWhile p l` exists, `p` rejects it. -/
lemma head_dropWhile_not (p : Char → Bool) (l : List Char) (c : Char)
    (h : (l.dropWhile p).head? = some c) : p c = false := by
  induction l with
  | nil => cases h
  | cons a as ih =>
    cases hp : p a with
    | true =>
      rw [List.dropWhile_cons_of_pos hp] at h
      exact ih h
    | false =>
      rw [List.dropWhile_cons_of_neg (by simp [hp])] at h
      have : a = c := by simpa using h
      rw [← this]
      exact hp

/-- Trailing-whitespace removal yields a prefix of the original string. -/
lemma trimRight_prefix (l : List Char) : trimRight l <+: l := by
  unfold trimRight
  have h : l.reverse.dropWhile isWsChar <:+ l.reverse := List.dropWhile_suffix _
  have h2 := List.reverse_prefix.mpr h
  rwa [List.reverse_reverse] at h2

/-- Whitespace characters are part of the stripped bullet class. -/
lemma isWsChar_imp_isStripChar (c : Char) (h : isWsChar c = true) :
    isStripChar c = true := by
  simp [isStripChar, h]

/-- The head of a stripped-and-trimmed fallback line is never a character
of the stripped class. -/
lemma head_jsTrim_strip (l : List Char) (c : Char)
    (h : (jsTrim (l.dropWhile isStripChar)).head? = some c) :
    isStripChar c = false := by
  cases hD : l.dropWhile isStripChar with
  | nil =>
    rw [hD] at h
    cases h
  | cons a as =>
    have ha : isStripChar a = false := by
      refine head_dropWhile_not isStripChar l a ?_
      rw [hD]
      rfl
    have haws : isWsChar a = false := by
      cases hws : isWsChar a with
      | false => rfl
      | true => rw [isWsChar_imp_isStripChar a hws] at ha; cases ha
    rw [hD] at h
    unfold jsTrim at h
    cases hT : trimRight (a :: as) with
    | nil =>
      rw [hT] at h
      cases h
    | cons b bs =>
      have hpre : trimRight (a :: as) <+: a :: as := trimRight_prefix _
      rw [hT] at hpre
      obtain ⟨t, ht⟩ := hpre
      have hba : b = a := (List.cons.inj ht).1
      rw [hT, hba] at h
      rw [List.dropWhile_cons_of_neg (by simp [haws])] at h
      have : a = c := by simpa using h
      rw [← this]
      exact ha

/-- `fallbackTopics` already clips to 10 entries. -/
lemma fallbackTopics_take_10 (text : List Char) :
    (fallbackTopics text).take 10 = fallbackTopics text := by
  unfold fallbackTopics
  rw [List.take_take]
  norm_num

/-- C9: when the completion text is not parseable as JSON, the `/topics`
handler recovers with the line-based fallback: the response status is
still 200 (never an error), its topic list is exactly the fallback parse
whenever that is non-empty, and the fallback parse keeps at most 10
entries, drops blank lines, and strips each kept line's leading
bullet/numbering characters. -/
theorem topics_fallback_recovery (text : List Char) :
    (topicsRun (ChatOutcome.ok text) ParseOutcome.failed).status = 200 ∧
    (fallbackTopics text ≠ [] →
      (topicsRun (ChatOutcome.ok text) ParseOutcome.failed).topics =
        fallbackTopics text) ∧
    (fallbackTopics text).length ≤ 10 ∧
    (∀ t ∈ fallbackTopics text, t ≠ [] ∧
      ∀ c : Char, t.head? = some c → isStripChar c = false) := by
  refine ⟨?_, ?_, ?_, ?_⟩
  · rfl
  · intro hne
    unfold topicsRun
    dsimp only
    rw [fallbackTopics_take_10, if_neg hne]
  · unfold fallbackTopics
    exact List.length_take_le _ _
  · intro t ht
    unfold fallbackTopics at ht
    have h1 := List.take_subset _ _ ht
    have h2 : t ≠ [] := by simpa using List.of_mem_filter h1
    refine ⟨h2, ?_⟩
    have h3 := List.mem_of_mem_filter h1
    obtain ⟨line, _, hline⟩ := List.mem_map.mp h3
    intro c hc
    rw [← hline] at hc
    exact head_jsTrim_strip line c hc

/-- Witness for C9 at a concrete unparseable completion text. -/
theorem topics_fallback_recovery_witness :
    (topicsRun (ChatOutcome.ok ("- One\n \n2. Two".data)) ParseOutcome.failed).topics =
      fallbackTopics ("- One\n \n2. Two".data) ∧
    isStripChar 'O' = false :=
  ⟨(topics_fallback_recovery ("- One\n \n2. Two".data)).2.1 (by decide),
   ((topics_fallback_recovery ("- One\n \n2. Two".data)).2.2.2 ("One".data)
      (by decide)).2 'O' (by decide)⟩

end DebateCoach
